import Mathlib

/-!
# Verification of the ops-calendar recurrence engine

Shallow embedding of the recurrence-rule data model, the natural-language
schedule parser (`parseRecurrence`) and the two instance generators
(`generateInstances` in `functions/api/import/tasks.ts` and in
`functions/api/tasks/index.ts`), together with theorems settling the
specification claims about them.

Dates are modelled as year/month/day triples of naturals.  The source emits
each occurrence as the template-literal string
`${year}-${pad2 (month+1)}-${pad2 day}` (or, for the daily/weekly loops, as
`current.toISOString().split('T')[0]`, which renders the same characters for
four-digit years under a UTC runtime); `fmtYmd` below embeds that rendering,
and the generators are stated over the triples they compute right before
formatting.  JavaScript `Date` month indices are 0-based in the source; the
embedding keeps every `+1`/`-1` adjustment where the source has one.
-/

set_option maxRecDepth 40000

namespace OpsCalendar

/-- A calendar date as the generator computes it: year, month (1-based as
rendered into the ISO string), day. -/
structure Ymd where
  y : Nat
  m : Nat
  d : Nat
deriving DecidableEq, Repr

/-- `pad2` embeds JavaScript `String(n).padStart(2, '0')`. -/
def pad2 (n : Nat) : String :=
  if n < 10 then "0" ++ toString n else toString n

/-- The ISO `YYYY-MM-DD` rendering used by every `instances.push` in the
source: `${year}-${String(month+1).padStart(2,'0')}-${String(day).padStart(2,'0')}`. -/
def fmtYmd (dt : Ymd) : String :=
  toString dt.y ++ "-" ++ pad2 dt.m ++ "-" ++ pad2 dt.d

/-- Gregorian leap-year rule, as implemented by JavaScript `Date` for
`new Date(year, month + 1, 0).getDate()` in February. -/
def isLeap (y : Nat) : Bool :=
  y % 4 == 0 && (y % 100 != 0 || y % 400 == 0)

/-- Number of days in 1-based month `m` of year `y` (28-31). -/
def daysInMonth (y m : Nat) : Nat :=
  if m == 2 then (if isLeap y then 29 else 28)
  else if m == 4 || m == 6 || m == 9 || m == 11 then 30
  else 31

/-- Embeds `new Date(year, mIdx, 0).getDate()` where `mIdx` is the 0-based
index one past the month of interest, i.e. the day count of 1-based month
`m = mIdx`.  JavaScript normalises an out-of-range index into the following
year, which the `(m-1)/12` carry reproduces (for `m = 0` JavaScript lands on
December 31 of the previous year, day 31, which the truncated subtraction
also yields). -/
def daysInMonthJS (y m : Nat) : Nat :=
  daysInMonth (y + (m - 1) / 12) ((m - 1) % 12 + 1)

/-- Days in all months of year `y` strictly before 1-based month `m`. -/
def daysBeforeMonth (y m : Nat) : Nat :=
  ((List.range' 1 (m - 1)).map (daysInMonth y)).sum

/-- Days in all years strictly before year `y` (proleptic Gregorian). -/
def daysBeforeYear (y : Nat) : Nat :=
  365 * (y - 1) + ((y - 1) / 4 + (y - 1) / 400) - (y - 1) / 100

/-- JavaScript `Date.prototype.getDay`: 0 = Sunday … 6 = Saturday.
Calibrated so that 2024-01-01 (a Monday) gives 1. -/
def dowOf (dt : Ymd) : Nat :=
  (daysBeforeYear dt.y + daysBeforeMonth dt.y dt.m + dt.d) % 7

/-- `isWeekday` from the daily branch: `dayOfWeek !== 0 && dayOfWeek !== 6`. -/
def isWeekdayB (dt : Ymd) : Bool :=
  dowOf dt != 0 && dowOf dt != 6

/-- JavaScript `x || 1` on a number field: 0 (falsy) becomes 1. -/
def orOne (n : Nat) : Nat :=
  if n = 0 then 1 else n

/-- Chronological order on date triples. -/
def dateLe (a b : Ymd) : Prop :=
  a.y < b.y ∨ (a.y = b.y ∧ (a.m < b.m ∨ (a.m = b.m ∧ a.d ≤ b.d)))

/-- Strict chronological order on date triples. -/
def dateLt (a b : Ymd) : Prop :=
  a.y < b.y ∨ (a.y = b.y ∧ (a.m < b.m ∨ (a.m = b.m ∧ a.d < b.d)))

instance : DecidablePred fun p : Ymd × Ymd => dateLe p.1 p.2 := by
  intro p; unfold dateLe; infer_instance

instance (a b : Ymd) : Decidable (dateLe a b) := by
  unfold dateLe; infer_instance

instance (a b : Ymd) : Decidable (dateLt a b) := by
  unfold dateLt; infer_instance

/-- `RecurrenceRange` from `src/types/index.ts` (declared on daily, weekly,
monthly and yearly configs; read by no generator). -/
structure RecurrenceRange where
  startDate : Option Ymd
  endType : String
  endDate : Option Ymd
  occurrences : Option Nat
deriving DecidableEq, Repr

/-- The recurrence configuration: the source keeps one loosely-typed record
discriminated by `type` (`RecurrenceConfig` in `src/types/index.ts`); each
constructor below carries the fields the generators read for that `type`,
plus the optional fields the type declarations document (`daysOfWeek`,
`interval`, `range`) so that theorems can express that generation ignores
them. -/
inductive Config where
  | daily (weekdaysOnly : Bool) (interval : Option Nat) (range : Option RecurrenceRange)
  | weekly (dayOfWeek : Nat) (daysOfWeek : Option (List Nat)) (interval : Option Nat)
      (range : Option RecurrenceRange)
  | monthly (dayOfMonth : Nat)
  | bimonthly (monthParity : String) (dayOfMonth : Nat)
  | quarterly (monthOfQuarter : Nat) (dayOfMonth : Nat)
  | yearly (month : Nat) (dayOfMonth : Nat)
  | nthWeekday (n : Nat) (dayOfWeek : Nat)
  | multiMonth (months : List Nat) (dayOfMonth : Nat)
  | multiDate (dates : List (Nat × Nat))
  | multiYear (interval : Nat) (baseYear : Nat) (month : Nat) (dayOfMonth : Nat)
  | oneTime (date : Ymd)
  | asNeeded
deriving DecidableEq, Repr

/-- Years `startYear .. endYear` inclusive (`for (let year = startYear; year <= endYear; year++)`). -/
def yearsIn (sy ey : Nat) : List Nat :=
  List.range' sy (ey + 1 - sy)

/-- All dates of 1-based month `m` of year `y`, in order. -/
def datesOfMonth (y m : Nat) : List Ymd :=
  (List.range (daysInMonth y m)).map fun i => ⟨y, m, i + 1⟩

/-- Every calendar date from January 1 of `sy` to December 31 of `ey`, in
order: the walk `current = new Date(sy,0,1); while (current <= endDate)
current.setDate(current.getDate()+1)` of the daily and weekly branches. -/
def windowDates (sy ey : Nat) : List Ymd :=
  (yearsIn sy ey).flatMap fun y => (List.range' 1 12).flatMap fun m => datesOfMonth y m

/-- First day `d` of month `(y, m)` with weekday `dow`: the loop
`let day = 1; while (new Date(year, month, day).getDay() !== dayOfWeek) day++`.
For `dow ≤ 6` the search always succeeds within the first seven days; for a
malformed `dow > 6` the JavaScript loop would never terminate, an unreachable
case in which we return 1. -/
def firstDowDay (y m dow : Nat) : Nat :=
  match (List.range' 1 7).find? (fun d => dowOf ⟨y, m, d⟩ == dow) with
  | some d => d
  | none => 1

/-- The per-type generation switch of `generateInstances` in
`functions/api/import/tasks.ts` (lines 238-427), producing the date triples
each branch formats into `scheduled_date`.  The window is
`new Date(startYear, 0, 1) .. new Date(endYear, 11, 31)`.  The `oneTime`
branch compares ISO strings in the source
(`date >= \x7bstartYear\x7d-01-01 && date <= \x7bendYear\x7d-12-31`), which
for four-digit years is exactly the chronological comparison used here. -/
def generateDates (config : Config) (startYear endYear : Nat) : List Ymd :=
  match config with
  | .daily weekdaysOnly _ _ =>
      (windowDates startYear endYear).filter fun dt => !weekdaysOnly || isWeekdayB dt
  | .weekly dayOfWeek _ _ _ =>
      -- `targetDay = (config.dayOfWeek as number) || 1`; the loop advances to
      -- the first matching weekday and then steps 7 days, i.e. it keeps
      -- exactly the window dates whose weekday is `targetDay`.
      (windowDates startYear endYear).filter fun dt => dowOf dt == orOne dayOfWeek
  | .monthly dayOfMonth =>
      (yearsIn startYear endYear).flatMap fun year =>
        (List.range 12).map fun month =>
          ⟨year, month + 1, min dayOfMonth (daysInMonthJS year (month + 1))⟩
  | .bimonthly monthParity dayOfMonth =>
      (yearsIn startYear endYear).flatMap fun year =>
        ((List.range 12).filter fun month =>
            let isEven := (month + 1) % 2 == 0
            if monthParity == "even" then isEven else !isEven).map fun month =>
          ⟨year, month + 1, min (orOne dayOfMonth) (daysInMonthJS year (month + 1))⟩
  | .quarterly monthOfQuarter dayOfMonth =>
      (yearsIn startYear endYear).flatMap fun year =>
        [0, 3, 6, 9].map fun month =>
          let targetMonth := month + (orOne monthOfQuarter - 1)
          ⟨year, targetMonth + 1, min (orOne dayOfMonth) (daysInMonthJS year (targetMonth + 1))⟩
  | .yearly month dayOfMonth =>
      -- `const month = (config.month as number) - 1` (truncated at 0 here;
      -- a month field of 0 is outside the declared 1-12 bounds).
      (yearsIn startYear endYear).map fun year =>
        let m := month - 1
        ⟨year, m + 1, min (orOne dayOfMonth) (daysInMonthJS year (m + 1))⟩
  | .nthWeekday n dayOfWeek =>
      -- `day = firstOccurrence + (n - 1) * 7`, emitted only when
      -- `day <= new Date(year, month + 1, 0).getDate()` (the "Check if still
      -- in month" guard); there is no special handling for n = 5.
      (yearsIn startYear endYear).flatMap fun year =>
        (List.range 12).filterMap fun month =>
          let day := firstDowDay year (month + 1) dayOfWeek + (n - 1) * 7
          if day ≤ daysInMonthJS year (month + 1) then some ⟨year, month + 1, day⟩ else none
  | .multiMonth months dayOfMonth =>
      (yearsIn startYear endYear).flatMap fun year =>
        months.map fun month =>
          ⟨year, month, min (orOne dayOfMonth) (daysInMonthJS year month)⟩
  | .multiDate dates =>
      (yearsIn startYear endYear).flatMap fun year =>
        dates.map fun md =>
          ⟨year, md.1, min md.2 (daysInMonthJS year md.1)⟩
  | .multiYear interval baseYear month dayOfMonth =>
      -- `(year - baseYear) % interval === 0`; JavaScript `x % 0` is NaN,
      -- never equal to 0, hence the `interval ≠ 0` conjunct.
      (yearsIn startYear endYear).filterMap fun (year : Nat) =>
        if interval ≠ 0 ∧ ((year : Int) - baseYear) % interval = 0 then
          let m := month - 1
          some ⟨year, m + 1, min (orOne dayOfMonth) (daysInMonthJS year (m + 1))⟩
        else none
  | .oneTime date =>
      if dateLe ⟨startYear, 1, 1⟩ date ∧ dateLe date ⟨endYear, 12, 31⟩ then [date] else []
  | .asNeeded => []

/-- `generateInstances` of `functions/api/import/tasks.ts`: pairs each
generated date, rendered to its ISO string, with the task definition id. -/
def generateInstances (taskId : Nat) (config : Config) (startYear endYear : Nat) :
    List (Nat × String) :=
  (generateDates config startYear endYear).map fun dt => (taskId, fmtYmd dt)

/-- The per-type switch of `generateInstances` in
`functions/api/tasks/index.ts` (lines 23-113).  Its daily and weekly branches
are textually identical to the import-time ones; monthly applies `|| 1` to
`dayOfMonth`; quarterly never reads `monthOfQuarter`; bimonthly phrases the
parity test as `(config.monthParity === 'even') === isEven`; and the switch
has no case for nthWeekday, multiMonth, multiDate, multiYear or oneTime, so
those types generate nothing. -/
def generateDatesTasks (config : Config) (startYear endYear : Nat) : List Ymd :=
  match config with
  | .daily weekdaysOnly _ _ =>
      (windowDates startYear endYear).filter fun dt => !weekdaysOnly || isWeekdayB dt
  | .weekly dayOfWeek _ _ _ =>
      (windowDates startYear endYear).filter fun dt => dowOf dt == orOne dayOfWeek
  | .monthly dayOfMonth =>
      (yearsIn startYear endYear).flatMap fun year =>
        (List.range 12).map fun month =>
          ⟨year, month + 1, min (orOne dayOfMonth) (daysInMonthJS year (month + 1))⟩
  | .quarterly _ dayOfMonth =>
      (yearsIn startYear endYear).flatMap fun year =>
        [0, 3, 6, 9].map fun month =>
          ⟨year, month + 1, min (orOne dayOfMonth) (daysInMonthJS year (month + 1))⟩
  | .yearly month dayOfMonth =>
      (yearsIn startYear endYear).map fun year =>
        let m := month - 1
        ⟨year, m + 1, min (orOne dayOfMonth) (daysInMonthJS year (m + 1))⟩
  | .bimonthly monthParity dayOfMonth =>
      (yearsIn startYear endYear).flatMap fun year =>
        ((List.range 12).filter fun month =>
            (monthParity == "even") == ((month + 1) % 2 == 0)).map fun month =>
          ⟨year, month + 1, min (orOne dayOfMonth) (daysInMonthJS year (month + 1))⟩
  | _ => []

/-- `generateInstances` of `functions/api/tasks/index.ts`. -/
def generateInstancesTasks (taskId : Nat) (config : Config) (startYear endYear : Nat) :
    List (Nat × String) :=
  (generateDatesTasks config startYear endYear).map fun dt => (taskId, fmtYmd dt)

/-! ## The natural-language parser (`parseRecurrence`, import/tasks.ts lines 24-235)

The source matches JavaScript regexes against the lowercased, trimmed input.
Each pattern is embedded as a function on the character list that recognises
the same strings: greedy runs embed `+`/`{n,m}` quantifiers (backtracking
never helps these patterns, because every quantified class is disjoint from
the character that must follow it), `scanFor` embeds the leftmost-match
search of an unanchored regex, and the anchored patterns consume the whole
list. -/

/-- ASCII lowercasing of one character (`toLowerCase()` on the ASCII input
strings at hand). -/
def lowerChar (c : Char) : Char :=
  if 'A' ≤ c && c ≤ 'Z' then Char.ofNat (c.toNat + 32) else c

/-- Regex class `\d`. -/
def isDigitC (c : Char) : Bool := '0' ≤ c && c ≤ '9'

/-- Regex class `[a-z]` (the input is lowercased first). -/
def isAlphaC (c : Char) : Bool := 'a' ≤ c && c ≤ 'z'

/-- Regex class `\s`. -/
def isSpaceC (c : Char) : Bool := c == ' ' || c == '\t' || c == '\n' || c == '\r'

/-- Decimal value of a digit run, as JavaScript `parseInt`. -/
def natOfDigits (cs : List Char) : Nat :=
  cs.foldl (fun a c => a * 10 + (c.toNat - 48)) 0

/-- Leftmost-match search: try the pattern at each start position in turn,
as a JavaScript unanchored regex does. -/
def scanFor {α : Type} (f : List Char → Option α) : List Char → Option α
  | [] => none
  | c :: cs =>
    match f (c :: cs) with
    | some a => some a
    | none => scanFor f cs

/-- Exact-key lookup in an association list of names. -/
def lookupName : List (String × Nat) → List Char → Option Nat
  | [], _ => none
  | (s, v) :: t, cs => if s.toList = cs then some v else lookupName t cs

/-- First table entry whose name is a prefix of the input (regex alternation
of literal words, tried in order); returns the value and the rest. -/
def prefixLookup : List (String × Nat) → List Char → Option (Nat × List Char)
  | [], _ => none
  | (s, v) :: t, cs =>
    if s.toList.isPrefixOf cs then some (v, cs.drop s.length) else prefixLookup t cs

/-- Substring scan underlying `w.includes(...)`. -/
def containsAux (n : List Char) : List Char → Bool
  | [] => n.isEmpty
  | c :: t => n.isPrefixOf (c :: t) || containsAux n t

/-- `w.includes(needle)`. -/
def containsStr (needle : String) (cs : List Char) : Bool :=
  containsAux needle.toList cs

/-- Full month names, January = 1. -/
def monthNames : List (String × Nat) :=
  [("january", 1), ("february", 2), ("march", 3), ("april", 4), ("may", 5), ("june", 6),
   ("july", 7), ("august", 8), ("september", 9), ("october", 10), ("november", 11),
   ("december", 12)]

/-- Three-letter abbreviations as listed in the `(jan|feb|...|dec)` regex
alternations. -/
def abbrNames : List (String × Nat) :=
  [("jan", 1), ("feb", 2), ("mar", 3), ("apr", 4), ("may", 5), ("jun", 6),
   ("jul", 7), ("aug", 8), ("sep", 9), ("oct", 10), ("nov", 11), ("dec", 12)]

/-- `MONTH_MAP` from the source: full names followed by the abbreviations it
lists (it omits a second "may" entry). -/
def monthMapPairs : List (String × Nat) :=
  monthNames ++
  [("jan", 1), ("feb", 2), ("mar", 3), ("apr", 4), ("jun", 6), ("jul", 7), ("aug", 8),
   ("sep", 9), ("oct", 10), ("nov", 11), ("dec", 12)]

/-- `/(\d+)(?:st|nd|rd|th)\s+of\s+month/` at one position. -/
def nthOfMonthAt (cs : List Char) : Option Nat :=
  let (ds, r1) := cs.span isDigitC
  if ds.isEmpty then none else
  match r1 with
  | c1 :: c2 :: r2 =>
    if (c1 = 's' ∧ c2 = 't') ∨ (c1 = 'n' ∧ c2 = 'd') ∨ (c1 = 'r' ∧ c2 = 'd') ∨
        (c1 = 't' ∧ c2 = 'h') then
      let (sp1, r3) := r2.span isSpaceC
      if sp1.isEmpty then none else
      match r3 with
      | 'o' :: 'f' :: r4 =>
        let (sp2, r5) := r4.span isSpaceC
        if sp2.isEmpty then none else
        if "month".toList.isPrefixOf r5 then some (natOfDigits ds) else none
      | _ => none
    else none
  | _ => none

/-- `/every\s+(\d+)\s*(?:years?|yrs?)/` at one position. -/
def multiYearAt (cs : List Char) : Option Nat :=
  if "every".toList.isPrefixOf cs then
    let (sp1, r2) := (cs.drop 5).span isSpaceC
    if sp1.isEmpty then none else
    let (ds, r3) := r2.span isDigitC
    if ds.isEmpty then none else
    let (_, r4) := r3.span isSpaceC
    if "year".toList.isPrefixOf r4 ∨ "yr".toList.isPrefixOf r4 then
      some (natOfDigits ds)
    else none
  else none

/-- `/(first|second|third|fourth|last)\s+(sunday|...|saturday)/` at one
position, returning the mapped `n` and `dayOfWeek`. -/
def nthWeekdayAt (cs : List Char) : Option (Nat × Nat) :=
  match prefixLookup
      [("first", 1), ("second", 2), ("third", 3), ("fourth", 4), ("last", 5)] cs with
  | none => none
  | some (n, r1) =>
    let (sp1, r2) := r1.span isSpaceC
    if sp1.isEmpty then none else
    match prefixLookup
        [("sunday", 0), ("monday", 1), ("tuesday", 2), ("wednesday", 3), ("thursday", 4),
         ("friday", 5), ("saturday", 6)] r2 with
    | none => none
    | some (d, _) => some (n, d)

/-- `/([a-z]+)\s+(\d{1,2})\s*\/\s*([a-z]+)\s+(\d{1,2})/` at one position:
the captured words and day numbers of e.g. "apr 30/oct 31". -/
def twoDateAt (cs : List Char) : Option (List Char × Nat × List Char × Nat) :=
  let (w1, r1) := cs.span isAlphaC
  if w1.isEmpty then none else
  let (sp1, r2) := r1.span isSpaceC
  if sp1.isEmpty then none else
  let (d1, r3) := r2.span isDigitC
  if d1.isEmpty ∨ 2 < d1.length then none else
  let (_, r4) := r3.span isSpaceC
  match r4 with
  | '/' :: r5 =>
    let (_, r6) := r5.span isSpaceC
    let (w2, r7) := r6.span isAlphaC
    if w2.isEmpty then none else
    let (sp2, r8) := r7.span isSpaceC
    if sp2.isEmpty then none else
    let (d2, _) := r8.span isDigitC
    if d2.isEmpty then none else
    some (w1, natOfDigits d1, w2, natOfDigits (d2.take 2))
  | _ => none

/-- `/([a-z]+)\s+(\d{1,2}),?\s+(\d{4})/` at one position ("december 3, 2026"). -/
def fullDateAt (cs : List Char) : Option (List Char × Nat × Nat) :=
  let (w1, r1) := cs.span isAlphaC
  if w1.isEmpty then none else
  let (sp1, r2) := r1.span isSpaceC
  if sp1.isEmpty then none else
  let (d1, r3) := r2.span isDigitC
  if d1.isEmpty ∨ 2 < d1.length then none else
  let r4 := match r3 with
    | ',' :: t => t
    | _ => r3
  let (sp2, r5) := r4.span isSpaceC
  if sp2.isEmpty then none else
  let (d2, _) := r5.span isDigitC
  if d2.length < 4 then none else
  some (w1, natOfDigits d1, natOfDigits (d2.take 4))

/-- Anchored `/^([a-z]+)\s+(\d{4})$/` ("may 2025"). -/
def oneTimeYearFull (cs : List Char) : Option (List Char × Nat) :=
  let (w1, r1) := cs.span isAlphaC
  if w1.isEmpty then none else
  let (sp1, r2) := r1.span isSpaceC
  if sp1.isEmpty then none else
  let (ds, r3) := r2.span isDigitC
  if r3.isEmpty ∧ ds.length = 4 then some (w1, natOfDigits ds) else none

/-- Anchored `/^([a-z]+)\s+(\d{1,2})$/` ("january 11"). -/
def specificDateFull (cs : List Char) : Option (List Char × Nat) :=
  let (w1, r1) := cs.span isAlphaC
  if w1.isEmpty then none else
  let (sp1, r2) := r1.span isSpaceC
  if sp1.isEmpty then none else
  let (ds, r3) := r2.span isDigitC
  if r3.isEmpty ∧ (ds.length = 1 ∨ ds.length = 2) then some (w1, natOfDigits ds) else none

/-- Anchored `/^(jan|...|dec)-(jan|...|dec)$/` ("jan-mar"). -/
def monthRangeFull (cs : List Char) : Option (Nat × Nat) :=
  match cs with
  | [a1, a2, a3, '-', b1, b2, b3] =>
    match lookupName abbrNames [a1, a2, a3], lookupName abbrNames [b1, b2, b3] with
    | some m1, some m2 => some (m1, m2)
    | _, _ => none
  | _ => none

/-- Anchored `/^(jan|...|dec)\/(jan|...|dec)$/` ("mar/sep"). -/
def multiMonthSlashFull (cs : List Char) : Option (Nat × Nat) :=
  match cs with
  | [a1, a2, a3, '/', b1, b2, b3] =>
    match lookupName abbrNames [a1, a2, a3], lookupName abbrNames [b1, b2, b3] with
    | some m1, some m2 => some (m1, m2)
    | _, _ => none
  | _ => none

/-- Split at the first `'/'`. -/
def splitAtSlash : List Char → Option (List Char × List Char)
  | [] => none
  | '/' :: t => some ([], t)
  | c :: t =>
    match splitAtSlash t with
    | some (a, b) => some (c :: a, b)
    | none => none

/-- Anchored `/^(january|...|december)\/(january|...|december)$/`. -/
def fullMonthSlashFull (cs : List Char) : Option (Nat × Nat) :=
  match splitAtSlash cs with
  | some (a, b) =>
    match lookupName monthNames a, lookupName monthNames b with
    | some m1, some m2 => some (m1, m2)
    | _, _ => none
  | none => none

/-- Anchored `/^(\d{4})$/`. -/
def yearOnlyFull (cs : List Char) : Option Nat :=
  if cs.length = 4 ∧ cs.all isDigitC then some (natOfDigits cs) else none

/-- Inclusive month range, wrapping past December when start > end
("oct-mar" gives [10,11,12,1,2,3]). -/
def monthSpan (startMonth endMonth : Nat) : List Nat :=
  if startMonth ≤ endMonth then
    List.range' startMonth (endMonth + 1 - startMonth)
  else
    List.range' startMonth (12 + 1 - startMonth) ++ List.range' 1 endMonth

/-- `parseRecurrence` from `functions/api/import/tasks.ts`: lowercases and
trims the input (`when.toLowerCase().trim()`, embedded character-wise for
the ASCII strings at hand), tries the patterns in source order (first match
wins; a pattern whose month-name lookup fails falls through to the next),
and defaults to Yearly January 1.  `currentYear` stands for the
`new Date().getFullYear()` read in the multi-year branch.  The function is
total: unrecognized input reaches the fallback, never an exception. -/
def parseRecurrence (currentYear : Nat) (whenText : String) : String × Config :=
  let cs := ((whenText.toList.map lowerChar).dropWhile isSpaceC).reverse.dropWhile isSpaceC
    |>.reverse
  let r :=
    (if cs = "daily".toList then some ("daily", Config.daily false none none) else none) <|>
    (if cs = "weekly".toList then some ("weekly", Config.weekly 1 none none none) else none) <|>
    (if cs = "monthly".toList then some ("monthly", Config.monthly 1) else none) <|>
    (if cs = "bi-monthly".toList ∨ containsStr "even months" cs ∨ containsStr "odd months" cs
      then
        some ("bimonthly",
          Config.bimonthly (if containsStr "odd" cs then "odd" else "even") 1)
      else none) <|>
    (if cs = "quarterly".toList then some ("quarterly", Config.quarterly 1 1) else none) <|>
    ((scanFor nthOfMonthAt cs).map fun d => ("monthly", Config.monthly d)) <|>
    ((scanFor multiYearAt cs).map fun n =>
      ("multiYear", Config.multiYear n currentYear 1 1)) <|>
    ((scanFor nthWeekdayAt cs).map fun p => ("nthWeekday", Config.nthWeekday p.1 p.2)) <|>
    ((scanFor twoDateAt cs).bind fun q =>
      match lookupName monthMapPairs q.1, lookupName monthMapPairs q.2.2.1 with
      | some m1, some m2 =>
        some ("multiDate", Config.multiDate [(m1, q.2.1), (m2, q.2.2.2)])
      | _, _ => none) <|>
    ((fullMonthSlashFull cs).map fun p =>
      ("multiMonth", Config.multiMonth [p.1, p.2] 1)) <|>
    ((monthRangeFull cs).map fun p =>
      ("multiMonth", Config.multiMonth (monthSpan p.1 p.2) 1)) <|>
    ((multiMonthSlashFull cs).map fun p =>
      ("multiMonth", Config.multiMonth [p.1, p.2] 1)) <|>
    ((scanFor fullDateAt cs).bind fun q =>
      (lookupName monthMapPairs q.1).map fun m =>
        ("oneTime", Config.oneTime ⟨q.2.2, m, q.2.1⟩)) <|>
    ((oneTimeYearFull cs).bind fun q =>
      (lookupName monthMapPairs q.1).map fun m =>
        ("oneTime", Config.oneTime ⟨q.2, m, 1⟩)) <|>
    ((specificDateFull cs).bind fun q =>
      (lookupName monthMapPairs q.1).map fun m =>
        ("yearly", Config.yearly m q.2)) <|>
    ((lookupName monthNames cs).map fun m => ("yearly", Config.yearly m 1)) <|>
    ((yearOnlyFull cs).map fun yr => ("oneTime", Config.oneTime ⟨yr, 1, 1⟩)) <|>
    (if containsStr "as needed" cs ∨ containsStr "as occurs" cs then
        some ("asNeeded", Config.asNeeded)
      else none)
  r.getD ("yearly", Config.yearly 1 1)

/-! ## Basic facts about the calendar utilities -/

theorem orOne_pos (n : Nat) : 1 ≤ orOne n := by
  unfold orOne; split <;> omega

theorem orOne_of_pos {n : Nat} (h : 1 ≤ n) : orOne n = n := by
  unfold orOne; split <;> omega

theorem daysInMonth_le (y m : Nat) : daysInMonth y m ≤ 31 := by
  unfold daysInMonth; split
  · split <;> omega
  · split <;> omega

theorem daysInMonth_ge (y m : Nat) : 28 ≤ daysInMonth y m := by
  unfold daysInMonth; split
  · split <;> omega
  · split <;> omega

theorem daysInMonthJS_eq (y m : Nat) (h1 : 1 ≤ m) (h2 : m ≤ 12) :
    daysInMonthJS y m = daysInMonth y m := by
  unfold daysInMonthJS
  have hd : (m - 1) / 12 = 0 := Nat.div_eq_of_lt (by omega)
  have hm : (m - 1) % 12 = m - 1 := Nat.mod_eq_of_lt (by omega)
  rw [hd, hm]
  congr 1
  omega

theorem mem_yearsIn {y sy ey : Nat} : y ∈ yearsIn sy ey ↔ sy ≤ y ∧ y ≤ ey := by
  unfold yearsIn
  rw [List.mem_range'_1]
  omega

theorem yearsIn_eq_nil {sy ey : Nat} (h : ey < sy) : yearsIn sy ey = [] := by
  unfold yearsIn
  have : ey + 1 - sy = 0 := by omega
  rw [this]
  rfl

theorem pairwise_lt_yearsIn (sy ey : Nat) : (yearsIn sy ey).Pairwise (· < ·) :=
  List.pairwise_lt_range' sy (ey + 1 - sy)

theorem dateLe_y {a b : Ymd} (h : dateLe a b) : a.y ≤ b.y := by
  unfold dateLe at h; omega

theorem firstDowDay_pos (y m dow : Nat) : 1 ≤ firstDowDay y m dow := by
  unfold firstDowDay
  split
  · next d hf =>
    have := List.mem_range'_1.1 (List.mem_of_find?_eq_some hf)
    omega
  · omega

/-- A valid calendar date: month in 1-12 and day within the month. -/
def validDate (dt : Ymd) : Prop :=
  1 ≤ dt.m ∧ dt.m ≤ 12 ∧ 1 ≤ dt.d ∧ dt.d ≤ daysInMonth dt.y dt.m

instance (dt : Ymd) : Decidable (validDate dt) := by
  unfold validDate; infer_instance

/-- Declared bounds of each config's numeric fields (spec section 3 and the
comments in `src/types/index.ts`). -/
def boundsOK : Config → Prop
  | .daily _ _ _ => True
  | .weekly dW _ _ _ => dW ≤ 6
  | .monthly d => 1 ≤ d ∧ d ≤ 31
  | .bimonthly _ d => 1 ≤ d ∧ d ≤ 31
  | .quarterly mq d => 1 ≤ mq ∧ mq ≤ 3 ∧ 1 ≤ d ∧ d ≤ 31
  | .yearly mo d => 1 ≤ mo ∧ mo ≤ 12 ∧ 1 ≤ d ∧ d ≤ 31
  | .nthWeekday n dow => 1 ≤ n ∧ n ≤ 5 ∧ dow ≤ 6
  | .multiMonth months d => (∀ m ∈ months, 1 ≤ m ∧ m ≤ 12) ∧ 1 ≤ d ∧ d ≤ 31
  | .multiDate dates => ∀ p ∈ dates, 1 ≤ p.1 ∧ p.1 ≤ 12 ∧ 1 ≤ p.2 ∧ p.2 ≤ 31
  | .multiYear i _ mo d => 1 ≤ i ∧ 1 ≤ mo ∧ mo ≤ 12 ∧ 1 ≤ d ∧ d ≤ 31
  | .oneTime dt => validDate dt
  | .asNeeded => True

/-- Packaged validity-and-window conclusion for a clamped date
`⟨y, m, min d0 (daysInMonthJS y m)⟩`, the shape produced by every branch
that materializes a day-of-month. -/
theorem valid_clamp {sy ey y m d0 : Nat} (hy1 : sy ≤ y) (hy2 : y ≤ ey) (hm1 : 1 ≤ m)
    (hm2 : m ≤ 12) (hd : 1 ≤ d0) :
    validDate ⟨y, m, min d0 (daysInMonthJS y m)⟩ ∧
      dateLe ⟨sy, 1, 1⟩ ⟨y, m, min d0 (daysInMonthJS y m)⟩ ∧
      dateLe ⟨y, m, min d0 (daysInMonthJS y m)⟩ ⟨ey, 12, 31⟩ := by
  have hjs := daysInMonthJS_eq y m hm1 hm2
  have h28 := daysInMonth_ge y m
  have h31 := daysInMonth_le y m
  refine ⟨⟨hm1, hm2, by dsimp; omega, by dsimp; omega⟩, ?_, ?_⟩
  · unfold dateLe; dsimp; omega
  · unfold dateLe; dsimp; omega

theorem valid_window {sy ey : Nat} {dt : Ymd} (h1 : sy ≤ dt.y) (h2 : dt.y ≤ ey)
    (h3 : 1 ≤ dt.m) (h4 : dt.m ≤ 12) (h5 : 1 ≤ dt.d) (h6 : dt.d ≤ daysInMonth dt.y dt.m) :
    validDate dt ∧ dateLe ⟨sy, 1, 1⟩ dt ∧ dateLe dt ⟨ey, 12, 31⟩ := by
  have h31 := daysInMonth_le dt.y dt.m
  refine ⟨⟨h3, h4, h5, h6⟩, ?_, ?_⟩
  · unfold dateLe; dsimp; omega
  · unfold dateLe; dsimp; omega

theorem mem_windowDates {sy ey : Nat} {dt : Ymd} :
    dt ∈ windowDates sy ey ↔
      sy ≤ dt.y ∧ dt.y ≤ ey ∧ 1 ≤ dt.m ∧ dt.m ≤ 12 ∧ 1 ≤ dt.d ∧
        dt.d ≤ daysInMonth dt.y dt.m := by
  constructor
  · intro h
    simp only [windowDates, datesOfMonth, List.mem_flatMap, List.mem_map, List.mem_range,
      List.mem_range'_1, mem_yearsIn] at h
    obtain ⟨y, ⟨hy1, hy2⟩, m, hm, i, hi, rfl⟩ := h
    dsimp
    exact ⟨hy1, hy2, by omega, by omega, by omega, by omega⟩
  · intro h
    obtain ⟨y, m, d⟩ := dt
    obtain ⟨h1, h2, h3, h4, h5, h6⟩ := h
    dsimp at h1 h2 h3 h4 h5 h6
    simp only [windowDates, datesOfMonth, List.mem_flatMap, List.mem_map, List.mem_range,
      List.mem_range'_1, mem_yearsIn]
    refine ⟨y, ⟨h1, h2⟩, m, by omega, d - 1, by omega, ?_⟩
    have hd : d - 1 + 1 = d := by omega
    rw [hd]

/-! ## Ordering infrastructure

`List.Pairwise dateLt` states that a date list is strictly ascending, hence
both sorted and duplicate-free. -/

theorem dateLt_of_y {ya yb ma mb da db : Nat} (h : ya < yb) :
    dateLt ⟨ya, ma, da⟩ ⟨yb, mb, db⟩ :=
  Or.inl h

theorem dateLt_of_m {y ma mb da db : Nat} (h : ma < mb) :
    dateLt ⟨y, ma, da⟩ ⟨y, mb, db⟩ :=
  Or.inr ⟨rfl, Or.inl h⟩

theorem dateLt_of_d {y m da db : Nat} (h : da < db) :
    dateLt ⟨y, m, da⟩ ⟨y, m, db⟩ :=
  Or.inr ⟨rfl, Or.inr ⟨rfl, h⟩⟩

/-- Concatenating per-year blocks in increasing year order preserves strict
date order when every block is ordered and stays inside its year. -/
theorem pairwise_flatMap_year {l : List Nat} {f : Nat → List Ymd}
    (hl : l.Pairwise (· < ·))
    (hy : ∀ y, ∀ dt ∈ f y, dt.y = y)
    (hs : ∀ y, (f y).Pairwise dateLt) :
    (l.flatMap f).Pairwise dateLt := by
  induction l with
  | nil => simp
  | cons a t ih =>
    rw [List.flatMap_cons, List.pairwise_append]
    rw [List.pairwise_cons] at hl
    refine ⟨hs a, ih hl.2, ?_⟩
    intro x hx z hz
    rw [List.mem_flatMap] at hz
    obtain ⟨b, hb, hzb⟩ := hz
    have hxa := hy a x hx
    have hzb' := hy b z hzb
    have hab : a < b := hl.1 b hb
    unfold dateLt
    omega

/-- Same, one level down: per-month blocks of a fixed year in increasing
month order. -/
theorem pairwise_flatMap_month (y0 : Nat) {l : List Nat} {f : Nat → List Ymd}
    (hl : l.Pairwise (· < ·))
    (hm : ∀ m, ∀ dt ∈ f m, dt.y = y0 ∧ dt.m = m)
    (hs : ∀ m, (f m).Pairwise dateLt) :
    (l.flatMap f).Pairwise dateLt := by
  induction l with
  | nil => simp
  | cons a t ih =>
    rw [List.flatMap_cons, List.pairwise_append]
    rw [List.pairwise_cons] at hl
    refine ⟨hs a, ih hl.2, ?_⟩
    intro x hx z hz
    rw [List.mem_flatMap] at hz
    obtain ⟨b, hb, hzb⟩ := hz
    have hxa := hm a x hx
    have hzb' := hm b z hzb
    have hab : a < b := hl.1 b hb
    unfold dateLt
    omega

theorem pairwise_datesOfMonth (y m : Nat) : (datesOfMonth y m).Pairwise dateLt := by
  unfold datesOfMonth
  refine List.pairwise_map.2 ((List.pairwise_lt_range _).imp ?_)
  intro a b h
  exact dateLt_of_d (by omega)

theorem pairwise_windowDates (sy ey : Nat) : (windowDates sy ey).Pairwise dateLt := by
  unfold windowDates
  refine pairwise_flatMap_year (pairwise_lt_yearsIn sy ey) ?_ ?_
  · intro y dt h
    simp only [datesOfMonth, List.mem_flatMap, List.mem_map, List.mem_range] at h
    obtain ⟨m, _, i, _, rfl⟩ := h
    rfl
  · intro y
    refine pairwise_flatMap_month y (List.pairwise_lt_range' 1 12) ?_ ?_
    · intro m dt h
      simp only [datesOfMonth, List.mem_map, List.mem_range] at h
      obtain ⟨i, _, rfl⟩ := h
      exact ⟨rfl, rfl⟩
    · intro m
      exact pairwise_datesOfMonth y m

/-! ## Claim theorems -/

/-- C1: the generator does not implement "last" for `n = 5`.  For the rule
`nthWeekday n=5, dayOfWeek=2` over the window 2026-2026 the code emits only
the literal fifth Tuesday of the months that have five Tuesdays (March 31,
June 30, September 29, December 29) — it does not emit 2026-01-27, the last
Tuesday of January, and emits no January or February date at all, because
those months have only four Tuesdays.  No date ever overflows into the
following month (the `day <= daysInMonth` guard), but the documented
meaning of `n = 5` ("last", per the `nthWeek`/`n` comments in
`src/types/index.ts`) is not what the code computes. -/
theorem c1_n5_literal_fifth_not_last :
    generateDates (Config.nthWeekday 5 2) 2026 2026 =
      [⟨2026, 3, 31⟩, ⟨2026, 6, 30⟩, ⟨2026, 9, 29⟩, ⟨2026, 12, 29⟩] ∧
    Ymd.mk 2026 1 27 ∉ generateDates (Config.nthWeekday 5 2) 2026 2026 := by
  decide

/-- C2: the parser tries its patterns in the fixed source order, first match
winning: "January 11" is Yearly month 1 day 11 (not OneTime), "May 2025" is
OneTime 2025-05-01, "Jan-Mar" is MultiMonth [1,2,3], "Second Tuesday" is
NthWeekday n=2 dayOfWeek=2, and unrecognized text falls back to Yearly
January 1 (the parser is a total function — no exception path exists). -/
theorem c2_parser_priority :
    parseRecurrence 2026 "January 11" = ("yearly", Config.yearly 1 11) ∧
    parseRecurrence 2026 "May 2025" = ("oneTime", Config.oneTime ⟨2025, 5, 1⟩) ∧
    parseRecurrence 2026 "Jan-Mar" = ("multiMonth", Config.multiMonth [1, 2, 3] 1) ∧
    parseRecurrence 2026 "Second Tuesday" = ("nthWeekday", Config.nthWeekday 2 2) ∧
    parseRecurrence 2026 "garbled xyz" = ("yearly", Config.yearly 1 1) := by
  decide

/-- C4 counterexample: the weekly generator reads only the single
`dayOfWeek` field; with `dayOfWeek = 1` and `daysOfWeek = [1,3,5]` it does
not emit Wednesday 2024-01-03, which the claim requires. -/
theorem c4_counterexample :
    Ymd.mk 2024 1 3 ∉ generateDates (Config.weekly 1 (some [1, 3, 5]) (some 1) none) 2024 2024 ∧
    dowOf ⟨2024, 1, 3⟩ = 3 := by
  decide

/-- C4 amended: the weekly branch ignores `daysOfWeek` (and `interval` and
`range`) entirely and emits only the dates of the single `dayOfWeek` field:
for `dayOfWeek = 1, daysOfWeek = [1,3,5]` over 2024 the January output is
exactly the five Mondays, and the output is unchanged under any values of
the ignored fields. -/
theorem c4_weekly_ignores_daysOfWeek :
    (generateDates (Config.weekly 1 (some [1, 3, 5]) (some 1) none) 2024 2024).filter
        (fun dt => dt.m == 1) =
      [⟨2024, 1, 1⟩, ⟨2024, 1, 8⟩, ⟨2024, 1, 15⟩, ⟨2024, 1, 22⟩, ⟨2024, 1, 29⟩] ∧
    ∀ (dW : Nat) (ds ds' : Option (List Nat)) (i i' : Option Nat)
      (r r' : Option RecurrenceRange) (sy ey : Nat),
      generateDates (.weekly dW ds i r) sy ey = generateDates (.weekly dW ds' i' r') sy ey :=
  ⟨by decide, fun _ _ _ _ _ _ _ _ _ => rfl⟩

/-- C5 counterexample: no generator reads the `range` field, so a daily rule
with `range.occurrences = 5` starting 2024-01-01 yields all 366 dates of the
2024 window, not 5. -/
theorem c5_counterexample :
    (generateDates
        (Config.daily false none (some ⟨some ⟨2024, 1, 1⟩, "occurrences", none, some 5⟩))
        2024 2024).length = 366 := by
  decide

/-- C5 amended: the daily branch ignores `range` (and `interval`): the
occurrences cap is never applied (366 dates for the 2024 window above), and
the output is invariant under the ignored fields. -/
theorem c5_range_ignored :
    (generateDates
        (Config.daily false none (some ⟨some ⟨2024, 1, 1⟩, "occurrences", none, some 5⟩))
        2024 2024).length = 366 ∧
    ∀ (w : Bool) (i i' : Option Nat) (r r' : Option RecurrenceRange) (sy ey : Nat),
      generateDates (.daily w i r) sy ey = generateDates (.daily w i' r') sy ey :=
  ⟨by decide, fun _ _ _ _ _ _ _ => rfl⟩

/-- C6 counterexample: the generator performs no validation whatsoever.  A
monthly rule with `dayOfMonth = 50` (outside the declared 1-31 bounds)
does not fail — it emits twelve clamped dates for 2024. -/
theorem c6_counterexample :
    (generateDates (Config.monthly 50) 2024 2024).length = 12 ∧
    Ymd.mk 2024 1 31 ∈ generateDates (Config.monthly 50) 2024 2024 := by
  decide

/-- C6 amended: no `InvalidRule` check exists anywhere in the generator:
out-of-bounds `dayOfMonth` above the month length is silently clamped
(`dayOfMonth = 50` gives twelve month-end dates), `n = 6` for nthWeekday
silently generates nothing, and `dayOfMonth = 0` in the import-time monthly
branch is emitted as an invalid day-0 date rather than rejected. -/
theorem c6_no_validation :
    (generateDates (Config.monthly 50) 2024 2024).length = 12 ∧
    generateDates (Config.nthWeekday 6 2) 2026 2026 = [] ∧
    Ymd.mk 2024 1 0 ∈ generateDates (Config.monthly 0) 2024 2024 ∧
    ¬ validDate ⟨2024, 1, 0⟩ := by
  decide

/-- C7 counterexample: parsing "Oct-Mar" yields the wrapped months list
[10,11,12,1,2,3]; the generator emits the 2024 window in that list order,
which is not ascending; and parsing "January/January" yields the repeated
list [1,1], whose generated dates contain a duplicate. -/
theorem c7_counterexample :
    (parseRecurrence 2026 "Oct-Mar").2 = Config.multiMonth [10, 11, 12, 1, 2, 3] 1 ∧
    generateDates (Config.multiMonth [10, 11, 12, 1, 2, 3] 1) 2024 2024 =
      [⟨2024, 10, 1⟩, ⟨2024, 11, 1⟩, ⟨2024, 12, 1⟩, ⟨2024, 1, 1⟩, ⟨2024, 2, 1⟩,
        ⟨2024, 3, 1⟩] ∧
    ¬ (generateDates (Config.multiMonth [10, 11, 12, 1, 2, 3] 1) 2024 2024).Pairwise dateLe ∧
    (parseRecurrence 2026 "January/January").2 = Config.multiMonth [1, 1] 1 ∧
    ¬ (generateDates (Config.multiMonth [1, 1] 1) 2024 2024).Nodup := by
  decide

/-- C8 counterexample: the creation-time generator in
`functions/api/tasks/index.ts` has no `oneTime` case, so the two call sites
disagree: the import-time generator emits the one-time date 2024-06-15 for
the 2024 window while the creation-time generator emits nothing. -/
theorem c8_counterexample :
    generateDates (Config.oneTime ⟨2024, 6, 15⟩) 2024 2024 = [⟨2024, 6, 15⟩] ∧
    generateDatesTasks (Config.oneTime ⟨2024, 6, 15⟩) 2024 2024 = [] := by
  decide

/-- C9: the weekly branch computes `targetDay = config.dayOfWeek || 1`, so
the Sunday encoding 0 (documented as Sunday in `src/types/index.ts`) is
silently replaced by Monday: with `dayOfWeek = 0` over 2024 the generator
emits Monday 2024-01-01 and omits Sunday 2024-01-07. -/
theorem c9_weekly_sunday_becomes_monday :
    Ymd.mk 2024 1 1 ∈ generateDates (Config.weekly 0 none none none) 2024 2024 ∧
    dowOf ⟨2024, 1, 1⟩ = 1 ∧
    Ymd.mk 2024 1 7 ∉ generateDates (Config.weekly 0 none none none) 2024 2024 ∧
    dowOf ⟨2024, 1, 7⟩ = 0 := by
  decide

/-- C3: day-of-month clamping.  A monthly rule with `dayOfMonth = 31` over
the 2024 window produces the leap-clamped 2024-02-29 and the 30-day-clamped
2024-04-30 and never an invalid February 31 or April 31; and in general the
monthly branch emits exactly `min dayOfMonth (daysInMonth year month)` as
the day for every window. -/
theorem c3_clamping :
    Ymd.mk 2024 2 29 ∈ generateDates (Config.monthly 31) 2024 2024 ∧
    Ymd.mk 2024 4 30 ∈ generateDates (Config.monthly 31) 2024 2024 ∧
    Ymd.mk 2024 2 31 ∉ generateDates (Config.monthly 31) 2024 2024 ∧
    Ymd.mk 2024 4 31 ∉ generateDates (Config.monthly 31) 2024 2024 ∧
    ∀ (d sy ey : Nat), ∀ dt ∈ generateDates (Config.monthly d) sy ey,
      dt.d = min d (daysInMonth dt.y dt.m) := by
  refine ⟨by decide, by decide, by decide, by decide, ?_⟩
  intro d sy ey dt hdt
  simp only [generateDates, List.mem_flatMap, List.mem_map, List.mem_range,
    mem_yearsIn] at hdt
  obtain ⟨y, hy, m, hm, rfl⟩ := hdt
  dsimp
  rw [daysInMonthJS_eq y (m + 1) (by omega) (by omega)]

/-- Witness for C3's universal clamp equation at a concrete emitted date. -/
theorem c3_clamping_w : (Ymd.mk 2024 2 29).d = min 31 (daysInMonth 2024 2) :=
  c3_clamping.2.2.2.2 31 2024 2024 ⟨2024, 2, 29⟩ (by decide)

/-- The configs on which the two duplicated per-type switches implement the
same branch: daily, weekly, bimonthly and yearly agree verbatim; monthly
agrees when `dayOfMonth` is nonzero (only the creation-time copy applies
`|| 1`); quarterly agrees when `monthOfQuarter || 1` is 1 (the creation-time
copy never reads `monthOfQuarter`); the remaining types have no case in the
creation-time switch at all. -/
def sharedType : Config → Prop
  | .daily _ _ _ => True
  | .weekly _ _ _ _ => True
  | .monthly d => 1 ≤ d
  | .bimonthly _ _ => True
  | .quarterly mq _ => mq ≤ 1
  | .yearly _ _ => True
  | _ => False

/-- C8 amended: the duplicated switches agree only on the types both
implement (daily, weekly, bimonthly, yearly, monthly with nonzero
dayOfMonth, quarterly with monthOfQuarter effectively 1); the import-only
types (nthWeekday, multiMonth, multiDate, multiYear, oneTime) generate
nothing at the creation-time call site. -/
theorem c8_duplicated_switch_agrees :
    ∀ (cfg : Config) (sy ey : Nat), sharedType cfg →
      generateDatesTasks cfg sy ey = generateDates cfg sy ey := by
  intro cfg sy ey h
  cases cfg with
  | daily w i r => rfl
  | weekly dW ds i r => rfl
  | monthly d =>
    have hd : orOne d = d := orOne_of_pos h
    simp only [generateDates, generateDatesTasks, hd]
  | bimonthly p d =>
    simp only [generateDates, generateDatesTasks]
    apply congrArg
    funext y
    apply congrArg
    apply List.filter_congr
    intro m _
    cases hp : p == "even" <;> cases he : ((m + 1) % 2 == 0) <;> simp [hp, he]
  | quarterly mq d =>
    have h' : mq ≤ 1 := h
    have hq : orOne mq = 1 := by unfold orOne; split <;> omega
    simp only [generateDates, generateDatesTasks, hq, Nat.sub_self, Nat.add_zero]
  | yearly mo d => rfl
  | nthWeekday n dW => exact False.elim h
  | multiMonth months d => exact False.elim h
  | multiDate dates => exact False.elim h
  | multiYear i b mo d => exact False.elim h
  | oneTime date => exact False.elim h
  | asNeeded => exact False.elim h

/-- Witness for C8's amended agreement theorem on a shared-type config. -/
theorem c8_duplicated_switch_agrees_w :
    generateDatesTasks (Config.monthly 15) 2024 2024 =
      generateDates (Config.monthly 15) 2024 2024 :=
  c8_duplicated_switch_agrees (Config.monthly 15) 2024 2024 (by show (1 : Nat) ≤ 15; omega)

/-- C10: for every config whose numeric fields are within their declared
bounds, every emitted date triple is a valid calendar date lying between
January 1 of `startYear` and December 31 of `endYear` (so its
`fmtYmd`-rendered `scheduled_date` is a well-formed ISO date), and a
reversed year range generates nothing. -/
theorem c10_output_valid :
    ∀ (cfg : Config) (sy ey : Nat), boundsOK cfg →
      (∀ dt ∈ generateDates cfg sy ey,
          validDate dt ∧ dateLe ⟨sy, 1, 1⟩ dt ∧ dateLe dt ⟨ey, 12, 31⟩) ∧
      (ey < sy → generateDates cfg sy ey = []) := by
  intro cfg sy ey hb
  constructor
  · intro dt hdt
    cases cfg with
    | daily w i r =>
      simp only [generateDates, List.mem_filter] at hdt
      obtain ⟨h1, h2, h3, h4, h5, h6⟩ := mem_windowDates.1 hdt.1
      exact valid_window h1 h2 h3 h4 h5 h6
    | weekly dW ds i r =>
      simp only [generateDates, List.mem_filter] at hdt
      obtain ⟨h1, h2, h3, h4, h5, h6⟩ := mem_windowDates.1 hdt.1
      exact valid_window h1 h2 h3 h4 h5 h6
    | monthly d =>
      have hb' : 1 ≤ d ∧ d ≤ 31 := hb
      simp only [generateDates, List.mem_flatMap, List.mem_map, List.mem_range,
        mem_yearsIn] at hdt
      obtain ⟨y, ⟨hy1, hy2⟩, m, hm, rfl⟩ := hdt
      exact valid_clamp hy1 hy2 (by omega) (by omega) hb'.1
    | bimonthly p d =>
      have hb' : 1 ≤ d ∧ d ≤ 31 := hb
      simp only [generateDates, List.mem_flatMap, List.mem_map, List.mem_filter,
        List.mem_range, mem_yearsIn] at hdt
      obtain ⟨y, ⟨hy1, hy2⟩, m, ⟨hm, _⟩, rfl⟩ := hdt
      exact valid_clamp hy1 hy2 (by omega) (by omega) (orOne_pos d)
    | quarterly mq d =>
      have hb' : 1 ≤ mq ∧ mq ≤ 3 ∧ 1 ≤ d ∧ d ≤ 31 := hb
      have hq : orOne mq = mq := orOne_of_pos hb'.1
      simp only [generateDates, List.mem_flatMap, List.mem_map, mem_yearsIn,
        List.mem_cons, List.not_mem_nil, or_false] at hdt
      obtain ⟨y, ⟨hy1, hy2⟩, m, hm, rfl⟩ := hdt
      rw [hq]
      rcases hm with rfl | rfl | rfl | rfl <;>
        exact valid_clamp hy1 hy2 (by omega) (by omega) (orOne_pos d)
    | yearly mo d =>
      have hb' : 1 ≤ mo ∧ mo ≤ 12 ∧ 1 ≤ d ∧ d ≤ 31 := hb
      simp only [generateDates, List.mem_map, mem_yearsIn] at hdt
      obtain ⟨y, ⟨hy1, hy2⟩, rfl⟩ := hdt
      exact valid_clamp hy1 hy2 (by omega) (by omega) (orOne_pos d)
    | nthWeekday n dW =>
      simp only [generateDates, List.mem_flatMap, List.mem_filterMap, List.mem_range,
        mem_yearsIn] at hdt
      obtain ⟨y, ⟨hy1, hy2⟩, m, hm, hif⟩ := hdt
      split at hif
      · next hguard =>
        rw [Option.some.injEq] at hif
        subst hif
        have hjs := daysInMonthJS_eq y (m + 1) (by omega) (by omega)
        have hfd := firstDowDay_pos y (m + 1) dW
        exact valid_window hy1 hy2 (by dsimp; omega) (by dsimp; omega) (by dsimp; omega)
          (by dsimp; omega)
      · exact Option.noConfusion hif
    | multiMonth months d =>
      have hb' : (∀ m ∈ months, 1 ≤ m ∧ m ≤ 12) ∧ 1 ≤ d ∧ d ≤ 31 := hb
      simp only [generateDates, List.mem_flatMap, List.mem_map, mem_yearsIn] at hdt
      obtain ⟨y, ⟨hy1, hy2⟩, mo, hmo, rfl⟩ := hdt
      have := hb'.1 mo hmo
      exact valid_clamp hy1 hy2 (by omega) (by omega) (orOne_pos d)
    | multiDate dates =>
      have hb' : ∀ p ∈ dates, 1 ≤ p.1 ∧ p.1 ≤ 12 ∧ 1 ≤ p.2 ∧ p.2 ≤ 31 := hb
      simp only [generateDates, List.mem_flatMap, List.mem_map, mem_yearsIn] at hdt
      obtain ⟨y, ⟨hy1, hy2⟩, md, hmd, rfl⟩ := hdt
      have := hb' md hmd
      exact valid_clamp hy1 hy2 (by omega) (by omega) (by omega)
    | multiYear i b mo d =>
      have hb' : 1 ≤ i ∧ 1 ≤ mo ∧ mo ≤ 12 ∧ 1 ≤ d ∧ d ≤ 31 := hb
      simp only [generateDates, List.mem_filterMap, mem_yearsIn] at hdt
      obtain ⟨y, ⟨hy1, hy2⟩, hif⟩ := hdt
      split at hif
      · rw [Option.some.injEq] at hif
        subst hif
        exact valid_clamp hy1 hy2 (by omega) (by omega) (orOne_pos d)
      · exact Option.noConfusion hif
    | oneTime date =>
      have hb' : validDate date := hb
      simp only [generateDates] at hdt
      split at hdt
      · next hc =>
        rw [List.mem_singleton] at hdt
        subst hdt
        exact ⟨hb', hc.1, hc.2⟩
      · exact absurd hdt (List.not_mem_nil dt)
    | asNeeded => exact absurd hdt (List.not_mem_nil dt)
  · intro hlt
    cases cfg with
    | daily w i r => simp [generateDates, windowDates, yearsIn_eq_nil hlt]
    | weekly dW ds i r => simp [generateDates, windowDates, yearsIn_eq_nil hlt]
    | monthly d => simp [generateDates, yearsIn_eq_nil hlt]
    | bimonthly p d => simp [generateDates, yearsIn_eq_nil hlt]
    | quarterly mq d => simp [generateDates, yearsIn_eq_nil hlt]
    | yearly mo d => simp [generateDates, yearsIn_eq_nil hlt]
    | nthWeekday n dW => simp [generateDates, yearsIn_eq_nil hlt]
    | multiMonth months d => simp [generateDates, yearsIn_eq_nil hlt]
    | multiDate dates => simp [generateDates, yearsIn_eq_nil hlt]
    | multiYear i b mo d => simp [generateDates, yearsIn_eq_nil hlt]
    | oneTime date =>
      simp only [generateDates]
      rw [if_neg]
      intro hc
      have h1 := dateLe_y hc.1
      have h2 := dateLe_y hc.2
      dsimp at h1 h2
      omega
    | asNeeded => rfl

/-- Witness for C10 on a bounded monthly rule and an emitted date. -/
theorem c10_output_valid_w :
    validDate ⟨2024, 1, 15⟩ ∧ dateLe ⟨2024, 1, 1⟩ ⟨2024, 1, 15⟩ ∧
      dateLe ⟨2024, 1, 15⟩ ⟨2024, 12, 31⟩ :=
  (c10_output_valid (Config.monthly 15) 2024 2024 (by exact ⟨by omega, by omega⟩)).1
    ⟨2024, 1, 15⟩ (by decide)

/-- The config types whose generated output is always strictly ascending:
everything except multiMonth and multiDate, which emit in the order of their
explicit month/date lists. -/
def orderedType : Config → Prop
  | .multiMonth _ _ => False
  | .multiDate _ => False
  | _ => True

/-- C7 amended: for every rule that is not multiMonth/multiDate the output
is strictly ascending (sorted with no duplicates) over every window;
multiMonth emits, per year, one date per entry of its months list in list
order, so a wrapped list (parsed "Oct-Mar") is unsorted and a repeated month
(parsed "January/January") duplicates. -/
theorem c7_sorted_unique :
    (∀ (cfg : Config) (sy ey : Nat), orderedType cfg →
        (generateDates cfg sy ey).Pairwise dateLt) ∧
    (∀ (months : List Nat) (d sy ey : Nat),
        generateDates (.multiMonth months d) sy ey =
          (yearsIn sy ey).flatMap fun y =>
            months.map fun mo => ⟨y, mo, min (orOne d) (daysInMonthJS y mo)⟩) := by
  constructor
  · intro cfg sy ey hc
    cases cfg with
    | daily w i r => exact (pairwise_windowDates sy ey).filter _
    | weekly dW ds i r => exact (pairwise_windowDates sy ey).filter _
    | monthly d =>
      refine pairwise_flatMap_year (pairwise_lt_yearsIn sy ey) ?_ ?_
      · intro y dt h
        simp only [List.mem_map, List.mem_range] at h
        obtain ⟨m, _, rfl⟩ := h
        rfl
      · intro y
        refine List.pairwise_map.2 ((List.pairwise_lt_range 12).imp ?_)
        intro a b h
        exact dateLt_of_m (by omega)
    | bimonthly p d =>
      refine pairwise_flatMap_year (pairwise_lt_yearsIn sy ey) ?_ ?_
      · intro y dt h
        simp only [List.mem_map, List.mem_filter, List.mem_range] at h
        obtain ⟨m, _, rfl⟩ := h
        rfl
      · intro y
        refine List.pairwise_map.2 (((List.pairwise_lt_range 12).filter _).imp ?_)
        intro a b h
        exact dateLt_of_m (by omega)
    | quarterly mq d =>
      refine pairwise_flatMap_year (pairwise_lt_yearsIn sy ey) ?_ ?_
      · intro y dt h
        simp only [List.mem_map] at h
        obtain ⟨m, _, rfl⟩ := h
        rfl
      · intro y
        refine List.pairwise_map.2 ?_
        have hq : ([0, 3, 6, 9] : List Nat).Pairwise (· < ·) := by decide
        refine hq.imp ?_
        intro a b h
        exact dateLt_of_m (by omega)
    | yearly mo d =>
      refine List.pairwise_map.2 ((pairwise_lt_yearsIn sy ey).imp ?_)
      intro a b h
      exact dateLt_of_y h
    | nthWeekday n dW =>
      refine pairwise_flatMap_year (pairwise_lt_yearsIn sy ey) ?_ ?_
      · intro y dt h
        simp only [List.mem_filterMap, List.mem_range] at h
        obtain ⟨m, _, hif⟩ := h
        split at hif
        · rw [Option.some.injEq] at hif
          subst hif
          rfl
        · exact Option.noConfusion hif
      · intro y
        refine (List.pairwise_lt_range 12).filterMap _ ?_
        intro a b hab x hx z hz
        rw [Option.mem_def] at hx hz
        dsimp only at hx hz
        split at hx
        · rw [Option.some.injEq] at hx
          subst hx
          split at hz
          · rw [Option.some.injEq] at hz
            subst hz
            exact dateLt_of_m (by omega)
          · exact Option.noConfusion hz
        · exact Option.noConfusion hx
    | multiMonth months d => exact False.elim hc
    | multiDate dates => exact False.elim hc
    | multiYear i b mo d =>
      refine (pairwise_lt_yearsIn sy ey).filterMap _ ?_
      intro a c hac x hx z hz
      rw [Option.mem_def] at hx hz
      dsimp only at hx hz
      split at hx
      · rw [Option.some.injEq] at hx
        subst hx
        split at hz
        · rw [Option.some.injEq] at hz
          subst hz
          exact dateLt_of_y hac
        · exact Option.noConfusion hz
      · exact Option.noConfusion hx
    | oneTime date =>
      simp only [generateDates]
      split
      · exact List.pairwise_singleton _ _
      · exact List.Pairwise.nil
    | asNeeded => exact List.Pairwise.nil
  · intro months d sy ey
    rfl

/-- Witness for C7's amended ordering theorem on a monthly rule. -/
theorem c7_sorted_unique_w :
    (generateDates (Config.monthly 31) 2024 2024).Pairwise dateLt :=
  c7_sorted_unique.1 (Config.monthly 31) 2024 2024 (by exact trivial)

end OpsCalendar
